import Mathlib

/-!
Shallow embedding of the AlphaEarthSimilarity core in Lean 4, together with
theorems checking the repository's specification claims against it.

The embedding follows the TypeScript sources:
* `src/utils/dequantize.ts` — `dequantize`, `extractEmbeddingVector`
* `src/workers/similarity.worker.ts` — `calculateSimilarityScores`
* `src/hooks/useSimilarity.ts` — worker reply handling (`onmessage`) and
  request issuing (`selectReferencePixel`)
* `src/utils/coordinates.ts` — `getUTMZone`, `getHemisphere`, `latLngToUTM`,
  `utmToPixel`, `latLngToPixel`, `bboxToPixelWindow`
* `src/utils/cogIndex.ts` — `pointInTile`, `bboxContainedInTile`,
  `findTileForBoundingBox`
* `src/utils/flipVertical.ts` — `flipVertical`
* `src/utils/geotiffExport.ts` — `downloadGeoTiff` byte layout

JavaScript `number` arithmetic is modelled with exact rationals (`ℚ`) where
the source only adds, multiplies, divides and compares, and with real numbers
(`ℝ`) where the source uses `Math.sqrt` or trigonometry.  Typed arrays are
modelled as lists or index functions; signed bytes are integers.
-/

set_option maxRecDepth 100000

namespace AlphaEarth

/-! ### Definitions: dequantizer (`src/utils/dequantize.ts`) -/

/-- `CONFIG.EMBEDDING_BANDS` from `src/constants.ts`: 64 bands per pixel. -/
def EMBEDDING_BANDS : ℕ := 64

/-- Reinterpretation of one unsigned transport byte as a signed 8-bit value,
as performed by the `Int8Array` view constructed over the decoded
`Uint8Array` buffer in `loadEmbeddings`
(`new Int8Array(rasterArray.buffer, rasterArray.byteOffset, rasterArray.length)`). -/
def toSigned (b : ℕ) : ℤ :=
  if b % 256 < 128 then (b % 256 : ℤ) else (b % 256 : ℤ) - 256

/-- Raw signed band value of pixel `p`, band `k` in a band-interleaved
Int8 block (`data[pixelIdx * bands + band]` in `dequantize`). -/
def rawVal (data : List ℤ) (p k : ℕ) : ℤ :=
  data.getD (p * EMBEDDING_BANDS + k) 0

/-- First-pass per-band dequantization from `dequantize`:
`-128` is the nodata marker and is stored as `0`; otherwise
`sign * absNormalized * absNormalized` with
`sign = raw >= 0 ? 1 : -1` and `absNormalized = Math.abs(raw) / 127.5`. -/
def deqBand (r : ℤ) : ℚ :=
  if r = -128 then 0
  else (if 0 ≤ r then 1 else -1) * (|(r : ℚ)| / (255 / 2)) * (|(r : ℚ)| / (255 / 2))

/-- Pixel validity from `dequantize`: a pixel is valid exactly when none of
its 64 bands stores `-128` (`isValid` / the returned `mask`). -/
def pixelValid (data : List ℤ) (p : ℕ) : Bool :=
  (List.range EMBEDDING_BANDS).all (fun k => rawVal data p k != -128)

/-- Squared magnitude of pixel `p`'s first-pass vector
(the `magnitude` accumulator of `dequantize` before `Math.sqrt`). -/
def magSq (data : List ℤ) (p : ℕ) : ℚ :=
  ∑ k in Finset.range EMBEDDING_BANDS, (deqBand (rawVal data p k)) ^ 2

/-- Final embedding value of pixel `p`, band `k`, as produced by
`dequantize`: the first-pass value, divided by the magnitude when the pixel
is valid and the magnitude is positive (the second pass of `dequantize`). -/
noncomputable def embedding (data : List ℤ) (p k : ℕ) : ℝ :=
  if pixelValid data p = true ∧ 0 < magSq data p then
    (deqBand (rawVal data p k) : ℝ) / Real.sqrt (magSq data p)
  else (deqBand (rawVal data p k) : ℝ)

/-- Squared L2 norm of the final 64-component vector of pixel `p`. -/
noncomputable def normSq (data : List ℤ) (p : ℕ) : ℝ :=
  ∑ k in Finset.range EMBEDDING_BANDS, (embedding data p k) ^ 2

/-- L2 norm of the final 64-component vector of pixel `p`. -/
noncomputable def normL2 (data : List ℤ) (p : ℕ) : ℝ :=
  Real.sqrt (normSq data p)

/-- Concrete 2-pixel block (width 2, height 1): pixel `0` stores `0` in all
64 bands (valid, zero first-pass magnitude); pixel `1` stores `-128` in band
`0` and `127` in band `1` (invalid, but band `1` dequantizes to a nonzero
value). -/
def c1Data : List ℤ :=
  List.replicate 64 0 ++ (-128 :: 127 :: List.replicate 62 0)

/-! ### Definitions: similarity worker (`src/workers/similarity.worker.ts`) -/

/-- `calculateSimilarityScores` from `src/workers/similarity.worker.ts`:
`mask` and `polygonMask` are `Uint8Array`s with `1 = valid, 0 = invalid`;
`polygonMask` may be absent (`null`).  A pixel that is data-masked, or
polygon-masked when a polygon mask is present, scores `-1`; every other
pixel scores the plain dot product of its 64-band vector with `refVector`
(the worker hardcodes `const bands = 64`). -/
noncomputable def calculateSimilarityScores (embeddings : ℕ → ℝ) (mask : ℕ → ℕ)
    (polygonMask : Option (ℕ → ℕ)) (refVector : ℕ → ℝ)
    (width height : ℕ) : List ℝ :=
  (List.range (width * height)).map fun pixelIdx =>
    if (mask pixelIdx == 0) || (match polygonMask with
        | some pm => pm pixelIdx == 0
        | none => false) then (-1 : ℝ)
    else ∑ band in Finset.range 64,
      embeddings (pixelIdx * 64 + band) * refVector band

/-- Concrete `1 × 1 × 64` block whose single pixel stores `0` in every band:
the pixel is valid but dequantizes to the zero vector. -/
def c3Data : List ℤ := List.replicate 64 0

/-- Flat embedding array of the `c3Data` grid, as handed to the worker. -/
noncomputable def c3Emb : ℕ → ℝ := fun i => embedding c3Data 0 i

/-- Data mask of the `c3Data` grid converted to `Uint8Array` form
(`embeddingData.mask.map(b => b ? 1 : 0)` in `initWorker`). -/
def c3Mask : ℕ → ℕ := fun p => if pixelValid c3Data p = true then 1 else 0

/-- Unit reference vector used to witness `calculateSimilarityScores_spec`. -/
noncomputable def c3wEmb : ℕ → ℝ := fun i => if i = 0 then 1 else 0

/-! ### Definitions: geographic types and `useSimilarity` hook state -/

/-- `BoundingBox` from `src/types.ts`: geographic degrees,
parsed from decimal strings, hence modelled with exact rationals. -/
structure BoundingBox where
  minLng : ℚ
  minLat : ℚ
  maxLng : ℚ
  maxLat : ℚ
  deriving DecidableEq

/-- Metadata the hook parks in `pendingResultRef` while the worker computes
(`{ bounds, width, height }` in `selectReferencePixel`). -/
structure SimilarityMeta where
  bounds : BoundingBox
  width : ℕ
  height : ℕ
  deriving DecidableEq

/-- `SimilarityResult` as stored in the hook's `similarityResult` state. -/
structure SimilarityResultState where
  scores : List ℚ
  width : ℕ
  height : ℕ
  bounds : BoundingBox
  deriving DecidableEq

/-- The mutable pieces of `useSimilarity` relevant to reply handling:
`requestIdRef`, `pendingResultRef`, the `similarityResult` state and the
`isCalculating` flag. -/
structure HookState where
  latestRequestId : ℕ
  pending : Option SimilarityMeta
  similarityResult : Option SimilarityResultState
  isCalculating : Bool
  deriving DecidableEq

/-- Effect of a worker `{ type: 'result', scores, requestId }` message on the
hook state (the `worker.onmessage` handler in `useSimilarity`): the reply is
applied only when `requestId` equals `requestIdRef.current` and a pending
request exists; otherwise the state is left untouched. -/
def onResultMessage (s : HookState) (requestId : ℕ) (scores : List ℚ) : HookState :=
  match s.pending with
  | some meta =>
      if requestId = s.latestRequestId then
        { s with
          similarityResult :=
            some { scores := scores, width := meta.width,
                   height := meta.height, bounds := meta.bounds },
          isCalculating := false,
          pending := none }
      else s
  | none => s

/-- Effect of issuing a new calculation request (the tail of
`selectReferencePixel`): park the metadata, raise `isCalculating`, and bump
`requestIdRef.current` before posting `{ type: 'calculate', requestId }`. -/
def issueRequest (s : HookState) (meta : SimilarityMeta) : HookState :=
  { s with
    pending := some meta,
    isCalculating := true,
    latestRequestId := s.latestRequestId + 1 }

/-- Concrete bounding box for the `onResultMessage` witness. -/
def c5Bounds : BoundingBox := { minLng := 0, minLat := 0, maxLng := 1, maxLat := 1 }

/-- Concrete hook state for the `onResultMessage` witness: request `5` is the
latest issued and its metadata is pending. -/
def c5State : HookState :=
  { latestRequestId := 5,
    pending := some { bounds := c5Bounds, width := 2, height := 2 },
    similarityResult := none,
    isCalculating := true }

/-! ### Definitions: coordinate transform (`src/utils/coordinates.ts`) -/

/-- UTM hemisphere label. -/
inductive Hemisphere where
  | N
  | S
  deriving DecidableEq

/-- `getUTMZone`: `Math.floor((longitude + 180) / 6) + 1`. -/
def getUTMZone (longitude : ℚ) : ℤ :=
  ⌊(longitude + 180) / 6⌋ + 1

/-- `getHemisphere`: `latitude >= 0 ? 'N' : 'S'`. -/
def getHemisphere (latitude : ℚ) : Hemisphere :=
  if 0 ≤ latitude then Hemisphere.N else Hemisphere.S

/-- `UTMCoord` from `src/types.ts`. -/
structure UTMCoord where
  easting : ℝ
  northing : ℝ
  zone : ℤ
  hemisphere : Hemisphere

/-- `toRad`: `degrees * (Math.PI / 180)`. -/
noncomputable def toRad (degrees : ℝ) : ℝ :=
  degrees * (Real.pi / 180)

/-- `latLngToUTM`: WGS84 forward transverse-Mercator series from
`src/utils/coordinates.ts`, with scale factor `0.9996`, false easting
`500000` and false northing `10000000` in the southern hemisphere. -/
noncomputable def latLngToUTM (lat lng : ℚ) : UTMCoord :=
  let zone : ℤ := getUTMZone lng
  let hemisphere := getHemisphere lat
  let a : ℝ := 6378137.0
  let f : ℝ := 1 / 298.257223563
  let k0 : ℝ := 0.9996
  let e : ℝ := Real.sqrt (2 * f - f * f)
  let e2 := e * e
  let ep2 := e2 / (1 - e2)
  let latRad := toRad (lat : ℝ)
  let lngRad := toRad (lng : ℝ)
  let lng0 := toRad (((zone : ℝ) - 1) * 6 - 180 + 3)
  let Nn := a / Real.sqrt (1 - e2 * Real.sin latRad * Real.sin latRad)
  let T := Real.tan latRad * Real.tan latRad
  let C := ep2 * Real.cos latRad * Real.cos latRad
  let A := Real.cos latRad * (lngRad - lng0)
  let M := a * ((1 - e2 / 4 - 3 * e2 * e2 / 64 - 5 * e2 * e2 * e2 / 256) * latRad
    - (3 * e2 / 8 + 3 * e2 * e2 / 32 + 45 * e2 * e2 * e2 / 1024) * Real.sin (2 * latRad)
    + (15 * e2 * e2 / 256 + 45 * e2 * e2 * e2 / 1024) * Real.sin (4 * latRad)
    - (35 * e2 * e2 * e2 / 3072) * Real.sin (6 * latRad))
  let easting := k0 * Nn * (A + (1 - T + C) * A * A * A / 6
    + (5 - 18 * T + T * T + 72 * C - 58 * ep2) * A * A * A * A * A / 120) + 500000
  let northingBase := k0 * (M + Nn * Real.tan latRad * (A * A / 2
    + (5 - T + 9 * C + 4 * C * C) * A * A * A * A / 24
    + (61 - 58 * T + T * T + 600 * C - 330 * ep2) * A * A * A * A * A * A / 720))
  let northing :=
    if hemisphere = Hemisphere.S then northingBase + 10000000 else northingBase
  { easting := easting, northing := northing, zone := zone, hemisphere := hemisphere }

/-- `PixelCoord` from `src/types.ts`: `Math.floor` results, so integers. -/
structure PixelCoord where
  x : ℤ
  y : ℤ
  deriving DecidableEq

/-- `utmToPixel` (bottom-up convention of `src/utils/coordinates.ts`):
pixel `(0,0)` at the tile's SW corner, `x` eastward, `y` northward:
`x = Math.floor((easting - tileOriginX) / pixelSize)`,
`y = Math.floor((northing - tileOriginY) / pixelSize)`. -/
noncomputable def utmToPixel (utm : UTMCoord)
    (tileOriginX tileOriginY pixelSize : ℝ) : PixelCoord :=
  { x := ⌊(utm.easting - tileOriginX) / pixelSize⌋,
    y := ⌊(utm.northing - tileOriginY) / pixelSize⌋ }

/-- `latLngToPixel`: forward projection then pixel conversion. -/
noncomputable def latLngToPixel (lat lng : ℚ)
    (tileOriginX tileOriginY pixelSize : ℝ) : PixelCoord :=
  utmToPixel (latLngToUTM lat lng) tileOriginX tileOriginY pixelSize

/-- `bboxToPixelWindow` (bottom-up convention of `src/utils/coordinates.ts`):
window `[x, y, width, height]` with origin at the bbox's SW corner pixel and
extent inclusive of the NE corner pixel. -/
noncomputable def bboxToPixelWindow (bbox : BoundingBox)
    (tileOriginX tileOriginY pixelSize : ℝ) : ℤ × ℤ × ℤ × ℤ :=
  let swPix := latLngToPixel bbox.minLat bbox.minLng tileOriginX tileOriginY pixelSize
  let nePix := latLngToPixel bbox.maxLat bbox.maxLng tileOriginX tileOriginY pixelSize
  (swPix.x, swPix.y, nePix.x - swPix.x + 1, nePix.y - swPix.y + 1)

/-! ### Definitions: tile index (`src/utils/cogIndex.ts`) -/

/-- Projected (UTM) bounds of a tile from the catalog row. -/
structure UTMBounds where
  minX : ℚ
  minY : ℚ
  maxX : ℚ
  maxY : ℚ
  deriving DecidableEq

/-- `TileInfo` from `src/types.ts`, as built by `fetchCOGIndex`. -/
structure TileInfo where
  wkt : String
  crs : String
  url : String
  year : String
  utmZone : String
  utmBounds : UTMBounds
  lngLatBounds : BoundingBox
  deriving DecidableEq

/-- `pointInTile`: the point lies within the tile's lat/lng bounds. -/
def pointInTile (lng lat : ℚ) (tile : TileInfo) : Bool :=
  decide (tile.lngLatBounds.minLng ≤ lng ∧ lng ≤ tile.lngLatBounds.maxLng
    ∧ tile.lngLatBounds.minLat ≤ lat ∧ lat ≤ tile.lngLatBounds.maxLat)

/-- `bboxContainedInTile`: the whole box fits in the tile's lat/lng bounds. -/
def bboxContainedInTile (bbox : BoundingBox) (tile : TileInfo) : Bool :=
  decide (tile.lngLatBounds.minLng ≤ bbox.minLng ∧ bbox.maxLng ≤ tile.lngLatBounds.maxLng
    ∧ tile.lngLatBounds.minLat ≤ bbox.minLat ∧ bbox.maxLat ≤ tile.lngLatBounds.maxLat)

/-- Successful result of `findTileForBoundingBox`. -/
structure FindTileResult where
  tile : TileInfo
  fullyContained : Bool
  deriving DecidableEq

/-- `findTileForBoundingBox` over an already-loaded catalog: throws (models as
`Except.error`) when the box's west and east edges fall in different UTM
zones; otherwise scans the catalog in order for the first tile containing the
box's center and reports whether the box is fully contained; `null` (modelled
as `Option.none`) when no tile contains the center. -/
def findTileForBoundingBox (tiles : List TileInfo) (bbox : BoundingBox) :
    Except String (Option FindTileResult) :=
  let centerLng := (bbox.minLng + bbox.maxLng) / 2
  let centerLat := (bbox.minLat + bbox.maxLat) / 2
  if getUTMZone bbox.minLng ≠ getUTMZone bbox.maxLng then
    Except.error ("Bounding box crosses UTM zone boundary")
  else
    Except.ok ((tiles.find? fun t => pointInTile centerLng centerLat t).map
      fun t => { tile := t, fullyContained := bboxContainedInTile bbox t })

/-- Concrete catalog tile for the `findTileForBoundingBox` witness. -/
def c8Tile : TileInfo :=
  { wkt := "", crs := "EPSG:32610", url := "", year := "2024", utmZone := "10N",
    utmBounds := { minX := 0, minY := 0, maxX := 1000, maxY := 1000 },
    lngLatBounds := { minLng := -123, minLat := 37, maxLng := -120, maxLat := 39 } }

/-- Concrete bounding box inside `c8Tile`, entirely within UTM zone 10. -/
def c8Bbox : BoundingBox :=
  { minLng := -122, minLat := 37, maxLng := -121, maxLat := 38 }

/-! ### Definitions: vertical flip (`src/utils/flipVertical.ts`) -/

/-- `flipVertical`: the result has the same length as `data` (the typed-array
constructor zero-fills, modelled by `default`); for each destination row
`y < height` the source row is `height - 1 - y`, copied elementwise with the
band-interleaved row contents unchanged. -/
def flipVertical {α : Type} [Inhabited α] (data : List α)
    (width height bands : ℕ) : List α :=
  let rowSize := width * bands
  (List.range data.length).map fun i =>
    let y := i / rowSize
    let idxInRow := i % rowSize
    if y < height then data.getD ((height - 1 - y) * rowSize + idxInRow) default
    else default

/-- Concrete raster for the `flipVertical` witness: width 1, height 2, 1 band. -/
def c10Data : List ℤ := [3, 5]

/-! ### Definitions: GeoTIFF export layout (`src/utils/geotiffExport.ts`) -/

/-- Byte size of one value of a TIFF field type (`typeSizes` in `writeTag`:
`{ 1: 1, 2: 1, 3: 2, 4: 4, 5: 8, 12: 8 }`, anything else 4). -/
def typeSize (t : ℕ) : ℕ :=
  if t = 1 then 1 else if t = 2 then 1 else if t = 3 then 2
  else if t = 4 then 4 else if t = 5 then 8 else if t = 12 then 8 else 4

/-- A tag value passed to `writeTag`: a scalar, an array of doubles
(`ModelPixelScale`, `ModelTiepoint`) or an array of shorts (`GeoKeyDirectory`). -/
inductive TagValue where
  | scalar (n : ℕ)
  | doubles (xs : List ℚ)
  | shorts (xs : List ℕ)
  deriving DecidableEq

/-- The 4-byte inline word stored for a value that fits in the entry (in
`downloadGeoTiff` every inline value is a scalar; the array cases mirror the
`value[0]` fallback of `writeTag` and are never exercised). -/
def inlineWord : TagValue → ℕ
  | TagValue.scalar n => n
  | TagValue.doubles _ => 0
  | TagValue.shorts xs => xs.headD 0

/-- One 12-byte IFD directory entry as `writeTag` lays it out:
2 bytes tag, 2 bytes field type, 4 bytes count, then either the inline value
or the offset of the out-of-line data. -/
structure IFDEntry where
  entryOffset : ℕ
  tag : ℕ
  fieldType : ℕ
  count : ℕ
  valueOrOffset : ℕ
  deriving DecidableEq

/-- One block written to the extension area after the IFD (`extOffset`
cursor in `writeTag`). -/
structure ExtWrite where
  offset : ℕ
  byteSize : ℕ
  value : TagValue
  deriving DecidableEq

/-- Writer cursor state threaded through the `writeTag` calls. -/
structure WriterState where
  ifdOffset : ℕ
  extOffset : ℕ
  entries : List IFDEntry
  extWrites : List ExtWrite
  deriving DecidableEq

/-- `writeTag` from `downloadGeoTiff`: emit one directory entry; a value of
more than 4 bytes goes to the extension area at the current `extOffset` and
the entry stores that offset instead of the value. -/
def writeTag (st : WriterState) (tag fieldType count : ℕ) (v : TagValue) :
    WriterState :=
  let valueSize := count * typeSize fieldType
  if valueSize ≤ 4 then
    { st with
      entries := st.entries ++
        [{ entryOffset := st.ifdOffset, tag := tag, fieldType := fieldType,
           count := count, valueOrOffset := inlineWord v }],
      ifdOffset := st.ifdOffset + 12 }
  else
    { st with
      entries := st.entries ++
        [{ entryOffset := st.ifdOffset, tag := tag, fieldType := fieldType,
           count := count, valueOrOffset := st.extOffset }],
      extWrites := st.extWrites ++
        [{ offset := st.extOffset, byteSize := valueSize, value := v }],
      extOffset := st.extOffset + valueSize,
      ifdOffset := st.ifdOffset + 12 }

/-- The layout of the byte buffer produced by `downloadGeoTiff`. -/
structure GeoTiffLayout where
  headerSize : ℕ
  numTags : ℕ
  ifdSize : ℕ
  extDataOffset : ℕ
  extDataSize : ℕ
  imageDataOffset : ℕ
  imageDataSize : ℕ
  totalSize : ℕ
  entries : List IFDEntry
  extWrites : List ExtWrite
  pixelScale : List ℚ
  tiepoint : List ℚ
  geoKeys : List ℕ

/-- `downloadGeoTiff` from `src/utils/geotiffExport.ts`, modelled up to the
byte level of its offset arithmetic: 8-byte header, one IFD with 14 entries
written by `writeTag` in source order, extension data directly after the
IFD, and Float32 image data at `Math.ceil(unaligned / 4) * 4` (the natural
number `((unaligned + 3) / 4) * 4`). -/
def downloadGeoTiff (width height : ℕ) (bounds : BoundingBox) : GeoTiffLayout :=
  let pixelScaleX : ℚ := (bounds.maxLng - bounds.minLng) / (width : ℚ)
  let pixelScaleY : ℚ := (bounds.maxLat - bounds.minLat) / (height : ℚ)
  let imageDataSize := width * height * 4
  let pixelScale : List ℚ := [pixelScaleX, pixelScaleY, 0]
  let tiepoint : List ℚ := [0, 0, 0, bounds.minLng, bounds.maxLat, 0]
  let geoKeys : List ℕ := [1, 1, 0, 3, 1024, 0, 1, 2, 1025, 0, 1, 1, 2048, 0, 1, 4326]
  let headerSize := 8
  let numTags := 14
  let ifdSize := 2 + numTags * 12 + 4
  let extDataOffset := headerSize + ifdSize
  let extDataSize := 24 + 48 + 32
  let unalignedOffset := extDataOffset + extDataSize
  let imageDataOffset := ((unalignedOffset + 3) / 4) * 4
  let totalSize := imageDataOffset + imageDataSize
  let st0 : WriterState :=
    { ifdOffset := headerSize + 2, extOffset := extDataOffset,
      entries := [], extWrites := [] }
  let st1 := writeTag st0 256 4 1 (TagValue.scalar width)
  let st2 := writeTag st1 257 4 1 (TagValue.scalar height)
  let st3 := writeTag st2 258 3 1 (TagValue.scalar 32)
  let st4 := writeTag st3 259 3 1 (TagValue.scalar 1)
  let st5 := writeTag st4 262 3 1 (TagValue.scalar 1)
  let st6 := writeTag st5 273 4 1 (TagValue.scalar imageDataOffset)
  let st7 := writeTag st6 277 3 1 (TagValue.scalar 1)
  let st8 := writeTag st7 278 4 1 (TagValue.scalar height)
  let st9 := writeTag st8 279 4 1 (TagValue.scalar imageDataSize)
  let st10 := writeTag st9 284 3 1 (TagValue.scalar 1)
  let st11 := writeTag st10 339 3 1 (TagValue.scalar 3)
  let st12 := writeTag st11 33550 12 3 (TagValue.doubles pixelScale)
  let st13 := writeTag st12 33922 12 6 (TagValue.doubles tiepoint)
  let st14 := writeTag st13 34735 3 16 (TagValue.shorts geoKeys)
  { headerSize := headerSize, numTags := numTags, ifdSize := ifdSize,
    extDataOffset := extDataOffset, extDataSize := extDataSize,
    imageDataOffset := imageDataOffset, imageDataSize := imageDataSize,
    totalSize := totalSize, entries := st14.entries, extWrites := st14.extWrites,
    pixelScale := pixelScale, tiepoint := tiepoint, geoKeys := geoKeys }

/-- Concrete bounding box for the `downloadGeoTiff` witness. -/
def c9Bounds : BoundingBox := { minLng := 0, minLat := 0, maxLng := 1, maxLat := 1 }

/-! ### Theorems -/

/-- `deqBand` vanishes exactly on the two sentinel-ish inputs `0` and `-128`. -/
theorem deqBand_eq_zero_iff (r : ℤ) : deqBand r = 0 ↔ r = 0 ∨ r = -128 := by
  unfold deqBand
  by_cases h : r = -128
  · simp [h]
  · rw [if_neg h]
    constructor
    · intro hz
      rcases mul_eq_zero.mp hz with hz' | hz'
      · rcases mul_eq_zero.mp hz' with hz'' | hz''
        · split at hz'' <;> norm_num at hz''
        · left
          have : |(r : ℚ)| = 0 := by
            field_simp at hz''
            linarith [abs_nonneg (r : ℚ)]
          exact_mod_cast abs_eq_zero.mp this
      · left
        have : |(r : ℚ)| = 0 := by
          field_simp at hz'
          linarith [abs_nonneg (r : ℚ)]
        exact_mod_cast abs_eq_zero.mp this
    · rintro (rfl | rfl)
      · norm_num
      · exact absurd rfl h

/-- Claim C2: in `dequantize`, every stored band value `r ≠ -128` is mapped,
before per-pixel normalization, to `sign(r) * (|r| / 127.5)^2`
(sign-preserving squared magnitude, not a linear scale); in particular raw
`0` maps to `0` and raw `127` maps to `(127 / 127.5)^2`. -/
theorem dequantize_band_curve (r : ℤ) (hr : r ≠ -128) :
    deqBand r = (Int.sign r : ℚ) * (|(r : ℚ)| / (255 / 2)) ^ 2
    ∧ deqBand 0 = 0 ∧ deqBand 127 = ((127 : ℚ) / (255 / 2)) ^ 2 := by
  refine ⟨?_, by norm_num [deqBand], by norm_num [deqBand]⟩
  unfold deqBand
  rw [if_neg hr]
  rcases lt_trichotomy r 0 with h | h | h
  · rw [if_neg (not_le.mpr h), Int.sign_eq_neg_one_of_neg h]
    push_cast
    ring
  · subst h
    norm_num
  · rw [if_pos h.le, Int.sign_eq_one_of_pos h]
    push_cast
    ring

/-- Witness for `dequantize_band_curve` at the concrete band value `r = -3`. -/
theorem dequantize_band_curve_witness :
    deqBand (-3) = (Int.sign (-3) : ℚ) * (|((-3 : ℤ) : ℚ)| / (255 / 2)) ^ 2
    ∧ deqBand 0 = 0 ∧ deqBand 127 = ((127 : ℚ) / (255 / 2)) ^ 2 :=
  dequantize_band_curve (-3) (by decide)

/-- Claim C4: `dequantize` marks a pixel invalid exactly when one of its 64
band bytes is `-128`, and the transport's unsigned byte `128` reinterpreted
as signed (the `Int8Array` view in `loadEmbeddings`) is `-128`. -/
theorem dequantize_mask_iff_nodata :
    (∀ (data : List ℤ) (p : ℕ),
      pixelValid data p = false ↔ ∃ k < EMBEDDING_BANDS, rawVal data p k = -128)
    ∧ toSigned 128 = -128 := by
  constructor
  · intro data p
    rw [← Bool.not_eq_true, pixelValid]
    rw [List.all_eq_true]
    push_neg
    constructor
    · rintro ⟨k, hk, hne⟩
      exact ⟨k, List.mem_range.mp hk, by simpa using hne⟩
    · rintro ⟨k, hk, heq⟩
      exact ⟨k, List.mem_range.mpr hk, by simp [heq]⟩
  · decide

theorem c1Data_raw0 : ∀ k ∈ Finset.range EMBEDDING_BANDS, rawVal c1Data 0 k = 0 := by
  decide

theorem c1Data_magSq0 : magSq c1Data 0 = 0 :=
  Finset.sum_eq_zero fun k hk => by
    rw [c1Data_raw0 k hk]
    norm_num [deqBand]

theorem c1Data_emb0 : ∀ k ∈ Finset.range EMBEDDING_BANDS, embedding c1Data 0 k = 0 := by
  intro k hk
  rw [embedding, if_neg (by simp [c1Data_magSq0]), c1Data_raw0 k hk]
  norm_num [deqBand]

/-- Counterexample to claim C1 as stated: on `c1Data` (a `2 × 1 × 64` block),
pixel `0` is valid but its final vector has L2 norm `0`, not within `1e-4`
of `1`; pixel `1` is invalid but its band `1` component is nonzero. -/
theorem dequantize_invariant_counterexample :
    c1Data.length = 2 * 1 * EMBEDDING_BANDS
    ∧ pixelValid c1Data 0 = true
    ∧ ¬ (|normL2 c1Data 0 - 1| ≤ 1 / 10000)
    ∧ pixelValid c1Data 1 = false
    ∧ ¬ (∀ k < EMBEDDING_BANDS, embedding c1Data 1 k = 0) := by
  have hnorm : normL2 c1Data 0 = 0 := by
    rw [normL2, normSq, Finset.sum_congr rfl (fun k hk => by rw [c1Data_emb0 k hk])]
    simp
  have hemb11 : embedding c1Data 1 1 = ((deqBand 127 : ℚ) : ℝ) := by
    rw [embedding, if_neg (by simp [show pixelValid c1Data 1 = false by decide])]
    norm_num [show rawVal c1Data 1 1 = 127 by decide]
  refine ⟨by decide, by decide, ?_, by decide, fun hall => ?_⟩
  · rw [hnorm]
    norm_num
  · have := hall 1 (by norm_num [EMBEDDING_BANDS])
    rw [hemb11] at this
    norm_num [deqBand] at this

/-- Claim C1 (amended): after `dequantize` on a `width*height*64` block,
every pixel `p < width*height` satisfies: if `mask[p]` is true then either
all 64 raw bands are `0` and the vector is the zero vector, or the L2 norm
of its 64-component vector is within `1e-4` of `1`; if `mask[p]` is false
then each component equals its unnormalized first-pass dequantization — in
particular every band that stored `-128` is `0` (components of other bands
of an invalid pixel may be nonzero). -/
theorem dequantize_output_invariant :
    ∀ (data : List ℤ) (w h p : ℕ), p < w * h →
    (pixelValid data p = true →
      ((∀ k < EMBEDDING_BANDS, rawVal data p k = 0)
        ∧ ∀ k < EMBEDDING_BANDS, embedding data p k = 0)
      ∨ |normL2 data p - 1| ≤ 1 / 10000)
    ∧ (pixelValid data p = false →
      ∀ k < EMBEDDING_BANDS,
        embedding data p k = (deqBand (rawVal data p k) : ℝ)
        ∧ (rawVal data p k = -128 → embedding data p k = 0)) := by
  intro data w h p _
  constructor
  · intro hv
    by_cases hm : 0 < magSq data p
    · right
      have hS : (0 : ℝ) < (magSq data p : ℝ) := by exact_mod_cast hm
      have hnormSq : normSq data p = 1 := by
        rw [normSq, Finset.sum_congr rfl
          (fun k _ => by rw [embedding, if_pos ⟨hv, hm⟩])]
        simp_rw [div_pow]
        rw [← Finset.sum_div, Real.sq_sqrt hS.le]
        have hcast : (∑ k in Finset.range EMBEDDING_BANDS,
            ((deqBand (rawVal data p k) : ℝ)) ^ 2) = ((magSq data p : ℚ) : ℝ) := by
          rw [magSq]
          push_cast
          rfl
        rw [hcast, div_self (ne_of_gt hS)]
      rw [normL2, hnormSq, Real.sqrt_one]
      norm_num
    · left
      have hm0 : magSq data p = 0 :=
        le_antisymm (not_lt.mp hm) (Finset.sum_nonneg fun k _ => sq_nonneg _)
      have hterm : ∀ k ∈ Finset.range EMBEDDING_BANDS,
          deqBand (rawVal data p k) = 0 := by
        intro k hk
        have := (Finset.sum_eq_zero_iff_of_nonneg
          (fun k _ => sq_nonneg (deqBand (rawVal data p k)))).mp hm0 k hk
        exact pow_eq_zero_iff (n := 2) (by norm_num) |>.mp this
      have hne : ∀ k < EMBEDDING_BANDS, rawVal data p k ≠ -128 := by
        intro k hk
        have := (List.all_eq_true.mp hv) k (List.mem_range.mpr hk)
        simpa using this
      refine ⟨fun k hk => ?_, fun k hk => ?_⟩
      · rcases (deqBand_eq_zero_iff _).mp (hterm k (Finset.mem_range.mpr hk)) with h | h
        · exact h
        · exact absurd h (hne k hk)
      · rw [embedding, if_neg (by simp [hm0])]
        exact_mod_cast congrArg (fun q : ℚ => (q : ℝ))
          (hterm k (Finset.mem_range.mpr hk))
  · intro hinv k _
    have hcond : ¬(pixelValid data p = true ∧ 0 < magSq data p) := by
      simp [hinv]
    rw [embedding, if_neg hcond]
    refine ⟨rfl, fun h128 => ?_⟩
    rw [h128]
    norm_num [deqBand]

/-- Witness for `dequantize_output_invariant` at the concrete block
`c1Data` (width 2, height 1), pixel `0`. -/
theorem dequantize_output_invariant_witness :
    (pixelValid c1Data 0 = true →
      ((∀ k < EMBEDDING_BANDS, rawVal c1Data 0 k = 0)
        ∧ ∀ k < EMBEDDING_BANDS, embedding c1Data 0 k = 0)
      ∨ |normL2 c1Data 0 - 1| ≤ 1 / 10000)
    ∧ (pixelValid c1Data 0 = false →
      ∀ k < EMBEDDING_BANDS,
        embedding c1Data 0 k = (deqBand (rawVal c1Data 0 k) : ℝ)
        ∧ (rawVal c1Data 0 k = -128 → embedding c1Data 0 k = 0)) :=
  dequantize_output_invariant c1Data 2 1 0 (by norm_num)

theorem getD_map_range {α : Type} (f : ℕ → α) (n i : ℕ) (d : α) (h : i < n) :
    ((List.range n).map f).getD i d = f i := by
  rw [List.getD_eq_getElem?_getD, List.getElem?_map, List.getElem?_range h]
  rfl

theorem c3Emb_zero : ∀ k, c3Emb k = 0 := by
  have hraw : ∀ k, rawVal c3Data 0 k = 0 := by
    intro k
    show (List.replicate 64 (0 : ℤ)).getD (0 * EMBEDDING_BANDS + k) 0 = 0
    rw [List.getD_eq_getElem?_getD, List.getElem?_replicate]
    split <;> rfl
  have hmag : magSq c3Data 0 = 0 :=
    Finset.sum_eq_zero fun k _ => by rw [hraw k]; norm_num [deqBand]
  intro k
  rw [c3Emb, embedding, if_neg (by simp [hmag]), hraw k]
  norm_num [deqBand]

/-- Counterexample to claim C3 as stated: the `c3Data` grid has a valid
(data-unmasked, selectable) pixel `0` whose dequantized vector is zero; with
that pixel as reference, the worker's compute pass scores it `0` at its own
index — the dot-product clause holds but the self-similarity consequent
(`1.0` within `1e-5`) fails. -/
theorem similarity_self_counterexample :
    pixelValid c3Data 0 = true
    ∧ c3Mask 0 ≠ 0
    ∧ (calculateSimilarityScores c3Emb c3Mask none c3Emb 1 1).getD 0 0 = 0
    ∧ ¬ (|(calculateSimilarityScores c3Emb c3Mask none c3Emb 1 1).getD 0 0 - 1|
          ≤ 1 / 100000) := by
  have hvalid : pixelValid c3Data 0 = true := by decide
  have hscore : (calculateSimilarityScores c3Emb c3Mask none c3Emb 1 1).getD 0 0 = 0 := by
    rw [calculateSimilarityScores, getD_map_range _ _ _ _ (by norm_num)]
    rw [if_neg (by simp [c3Mask, hvalid])]
    exact Finset.sum_eq_zero fun k _ => by rw [c3Emb_zero]; ring
  refine ⟨hvalid, by simp [c3Mask, hvalid], hscore, ?_⟩
  rw [hscore]
  norm_num

/-- Claim C3 (amended): the worker compute pass returns `width*height`
scores; every data-masked or (when a polygon mask is present)
polygon-masked pixel scores exactly `-1`, and every other pixel scores the
dot product of its 64-component vector with the reference vector, with no
further normalization.  A reference pixel that is unmasked in both masks
and whose vector has unit L2 norm scores exactly `1` at its own index (the
as-stated consequent can fail when a valid pixel carries a zero vector,
which `dequantize` produces when all its raw bands are `0`). -/
theorem calculateSimilarityScores_spec :
    ∀ (emb : ℕ → ℝ) (mask : ℕ → ℕ) (poly : Option (ℕ → ℕ))
      (ref : ℕ → ℝ) (w h : ℕ),
    (calculateSimilarityScores emb mask poly ref w h).length = w * h
    ∧ (∀ p, p < w * h →
        ((mask p = 0 ∨ ∃ pm, poly = some pm ∧ pm p = 0) →
          (calculateSimilarityScores emb mask poly ref w h).getD p 0 = -1)
        ∧ (mask p ≠ 0 → (∀ pm, poly = some pm → pm p ≠ 0) →
          (calculateSimilarityScores emb mask poly ref w h).getD p 0
            = ∑ band in Finset.range 64, emb (p * 64 + band) * ref band))
    ∧ (∀ refIdx, refIdx < w * h → mask refIdx ≠ 0 →
        (∀ pm, poly = some pm → pm refIdx ≠ 0) →
        (∀ k, ref k = emb (refIdx * 64 + k)) →
        (∑ k in Finset.range 64, ref k ^ 2) = 1 →
        (calculateSimilarityScores emb mask poly ref w h).getD refIdx 0 = 1) := by
  intro emb mask poly ref w h
  have hbranch : ∀ p, p < w * h →
      ((mask p = 0 ∨ ∃ pm, poly = some pm ∧ pm p = 0) →
        (calculateSimilarityScores emb mask poly ref w h).getD p 0 = -1)
      ∧ (mask p ≠ 0 → (∀ pm, poly = some pm → pm p ≠ 0) →
        (calculateSimilarityScores emb mask poly ref w h).getD p 0
          = ∑ band in Finset.range 64, emb (p * 64 + band) * ref band) := by
    intro p hp
    rw [calculateSimilarityScores]
    rw [getD_map_range _ _ _ _ hp]
    constructor
    · intro hmask
      rw [if_pos]
      rcases hmask with hm | ⟨pm, hpm, hz⟩
      · simp [hm]
      · cases poly with
        | none => cases hpm
        | some pm' =>
          have : pm' = pm := by injection hpm
          subst this
          simp [hz]
    · intro hm hpoly
      rw [if_neg]
      intro hcond
      rcases Bool.or_eq_true_iff.mp hcond with hc | hc
      · exact hm (by simpa using hc)
      · cases poly with
        | none => simp at hc
        | some pm => exact hpoly pm rfl (by simpa using hc)
  refine ⟨by simp [calculateSimilarityScores], hbranch, ?_⟩
  intro refIdx hlt hm hpoly href hunit
  rw [(hbranch refIdx hlt).2 hm hpoly, ← hunit]
  exact Finset.sum_congr rfl fun k _ => by rw [← href k]; ring

/-- Witness for `calculateSimilarityScores_spec`: a `1 × 1` grid whose only
pixel holds the unit vector `e₀`, scored against itself, yields `1`. -/
theorem calculateSimilarityScores_spec_witness :
    (calculateSimilarityScores c3wEmb (fun _ => 1) none c3wEmb 1 1).getD 0 0 = 1 :=
  (calculateSimilarityScores_spec c3wEmb (fun _ => 1) none c3wEmb 1 1).2.2 0
    (by norm_num) (by norm_num) (fun pm h => by cases h)
    (fun k => by simp [c3wEmb])
    (by
      have hsq : ∀ k : ℕ, (c3wEmb k) ^ 2 = if k = 0 then (1 : ℝ) else 0 := by
        intro k
        by_cases h : k = 0 <;> simp [c3wEmb, h]
      rw [Finset.sum_congr rfl fun k _ => hsq k]
      simp)

/-- Claim C5: a worker `result` reply is applied to the similarity state only
when its `requestId` equals the most recently issued request id; a reply
carrying any other (in particular an earlier) `requestId` leaves the hook
state — including the similarity result — unchanged, and `issueRequest`
increments the request counter monotonically.  When the latest pending
request's reply arrives it is applied. -/
theorem stale_reply_suppression :
    ∀ (s : HookState) (rid : ℕ) (scores : List ℚ),
    (rid ≠ s.latestRequestId → onResultMessage s rid scores = s)
    ∧ (onResultMessage s rid scores ≠ s → rid = s.latestRequestId)
    ∧ (∀ meta, s.pending = some meta → rid = s.latestRequestId →
        (onResultMessage s rid scores).similarityResult
          = some { scores := scores, width := meta.width,
                   height := meta.height, bounds := meta.bounds })
    ∧ (∀ meta, (issueRequest s meta).latestRequestId = s.latestRequestId + 1) := by
  intro s rid scores
  have hdiscard : rid ≠ s.latestRequestId → onResultMessage s rid scores = s := by
    intro hne
    rw [onResultMessage]
    cases s.pending with
    | none => rfl
    | some meta => simp [hne]
  refine ⟨hdiscard, ?_, ?_, fun meta => rfl⟩
  · intro hchanged
    by_contra hne
    exact hchanged (hdiscard hne)
  · intro meta hpend hrid
    rw [onResultMessage, hpend]
    simp [hrid]

/-- Witness for `stale_reply_suppression` at the concrete state `c5State`
(latest request id `5`): the stale reply `3` is dropped wholesale, and the
matching reply `5` is applied. -/
theorem stale_reply_suppression_witness :
    onResultMessage c5State 3 [1] = c5State
    ∧ (onResultMessage c5State 5 [1]).similarityResult
        = some { scores := [1], width := 2, height := 2, bounds := c5Bounds } :=
  ⟨(stale_reply_suppression c5State 3 [1]).1 (by decide),
   (stale_reply_suppression c5State 5 [1]).2.2.1
     { bounds := c5Bounds, width := 2, height := 2 } rfl rfl⟩

/-- Claim C7: `utmToPixel` with the tile origin at the tile's projected SW
corner returns `(0, 0)` for a point exactly at that origin; increasing
easting by 100 m at 10 m/pixel increases `x` by exactly 10, and increasing
northing by 100 m increases the native bottom-up `y` by exactly 10. -/
theorem utmToPixel_origin_and_steps :
    ∀ (tileOriginX tileOriginY : ℝ) (z : ℤ) (hemi : Hemisphere) (u : UTMCoord),
    utmToPixel { easting := tileOriginX, northing := tileOriginY,
                 zone := z, hemisphere := hemi } tileOriginX tileOriginY 10
      = { x := 0, y := 0 }
    ∧ (utmToPixel { easting := u.easting + 100, northing := u.northing,
                    zone := u.zone, hemisphere := u.hemisphere }
        tileOriginX tileOriginY 10).x
      = (utmToPixel u tileOriginX tileOriginY 10).x + 10
    ∧ (utmToPixel { easting := u.easting, northing := u.northing + 100,
                    zone := u.zone, hemisphere := u.hemisphere }
        tileOriginX tileOriginY 10).y
      = (utmToPixel u tileOriginX tileOriginY 10).y + 10 := by
  intro ox oy z hemi u
  have hstep : ∀ v : ℝ, ⌊(v + 100 - oy) / 10⌋ = ⌊(v - oy) / 10⌋ + 10 := by
    intro v
    have : (v + 100 - oy) / 10 = (v - oy) / 10 + (10 : ℤ) := by
      push_cast
      ring
    rw [this, Int.floor_add_int]
  refine ⟨?_, ?_, ?_⟩
  · rw [utmToPixel]
    simp
  · show ⌊(u.easting + 100 - ox) / 10⌋ = ⌊(u.easting - ox) / 10⌋ + 10
    have : (u.easting + 100 - ox) / 10 = (u.easting - ox) / 10 + (10 : ℤ) := by
      push_cast
      ring
    rw [this, Int.floor_add_int]
  · exact hstep u.northing

/-- Claim C6: `bboxToPixelWindow(bbox, tileOriginX, tileOriginY, pixelSize)`
returns `[x, y, w, h]` where `(x, y)` is the native pixel coordinate of the
box's southwest corner and `w = ne.x - sw.x + 1`, `h = ne.y - sw.y + 1`;
the half-open extent `[x, x + w)` × `[y, y + h)` is exactly the inclusive
range from the SW corner pixel to the NE corner pixel. -/
theorem bboxToPixelWindow_spec :
    ∀ (bbox : BoundingBox) (tileOriginX tileOriginY pixelSize : ℝ),
    bboxToPixelWindow bbox tileOriginX tileOriginY pixelSize
      = ((latLngToPixel bbox.minLat bbox.minLng tileOriginX tileOriginY pixelSize).x,
         (latLngToPixel bbox.minLat bbox.minLng tileOriginX tileOriginY pixelSize).y,
         (latLngToPixel bbox.maxLat bbox.maxLng tileOriginX tileOriginY pixelSize).x
           - (latLngToPixel bbox.minLat bbox.minLng tileOriginX tileOriginY pixelSize).x + 1,
         (latLngToPixel bbox.maxLat bbox.maxLng tileOriginX tileOriginY pixelSize).y
           - (latLngToPixel bbox.minLat bbox.minLng tileOriginX tileOriginY pixelSize).y + 1)
    ∧ (∀ i : ℤ,
        ((latLngToPixel bbox.minLat bbox.minLng tileOriginX tileOriginY pixelSize).x ≤ i
          ∧ i ≤ (latLngToPixel bbox.maxLat bbox.maxLng tileOriginX tileOriginY pixelSize).x)
        ↔ ((latLngToPixel bbox.minLat bbox.minLng tileOriginX tileOriginY pixelSize).x ≤ i
          ∧ i < (latLngToPixel bbox.minLat bbox.minLng tileOriginX tileOriginY pixelSize).x
            + ((latLngToPixel bbox.maxLat bbox.maxLng tileOriginX tileOriginY pixelSize).x
              - (latLngToPixel bbox.minLat bbox.minLng tileOriginX tileOriginY pixelSize).x + 1)))
    ∧ (∀ j : ℤ,
        ((latLngToPixel bbox.minLat bbox.minLng tileOriginX tileOriginY pixelSize).y ≤ j
          ∧ j ≤ (latLngToPixel bbox.maxLat bbox.maxLng tileOriginX tileOriginY pixelSize).y)
        ↔ ((latLngToPixel bbox.minLat bbox.minLng tileOriginX tileOriginY pixelSize).y ≤ j
          ∧ j < (latLngToPixel bbox.minLat bbox.minLng tileOriginX tileOriginY pixelSize).y
            + ((latLngToPixel bbox.maxLat bbox.maxLng tileOriginX tileOriginY pixelSize).y
              - (latLngToPixel bbox.minLat bbox.minLng tileOriginX tileOriginY pixelSize).y + 1))) := by
  intro bbox ox oy ps
  refine ⟨rfl, fun i => ?_, fun j => ?_⟩
  · omega
  · omega

theorem find?_eq_some_decomp {α : Type} (p : α → Bool) (l : List α) (a : α)
    (h : l.find? p = some a) :
    ∃ l1 l2, l = l1 ++ a :: l2 ∧ (∀ x ∈ l1, p x = false) ∧ p a = true := by
  induction l with
  | nil => cases h
  | cons b t ih =>
    by_cases hb : p b = true
    · rw [List.find?_cons_of_pos _ hb] at h
      injection h with h'
      subst h'
      exact ⟨[], t, rfl, ⟨fun x hx => absurd hx (List.not_mem_nil x), hb⟩⟩
    · rw [List.find?_cons_of_neg _ hb] at h
      rcases ih h with ⟨l1, l2, rfl, h1, h2⟩
      refine ⟨b :: l1, l2, rfl, ?_, h2⟩
      intro x hx
      rcases List.mem_cons.mp hx with rfl | hx'
      · exact Bool.not_eq_true _ |>.mp hb
      · exact h1 x hx'

/-- Claim C8: `findTileForBoundingBox` fails with the zone-crossing error
exactly when `getUTMZone(bbox.minLng) ≠ getUTMZone(bbox.maxLng)`; otherwise
it returns the first catalog tile whose geographic bounds contain the box's
center, with `fullyContained` true iff the whole box fits in that tile's
bounds; when no tile contains the center it returns `null` (an ordinary
value, not an exception). -/
theorem findTile_spec :
    ∀ (tiles : List TileInfo) (bbox : BoundingBox),
    ((∃ msg, findTileForBoundingBox tiles bbox = Except.error msg) ↔
      getUTMZone bbox.minLng ≠ getUTMZone bbox.maxLng)
    ∧ (∀ r, findTileForBoundingBox tiles bbox = Except.ok (some r) →
        ∃ l1 l2, tiles = l1 ++ r.tile :: l2
          ∧ (∀ t ∈ l1, pointInTile ((bbox.minLng + bbox.maxLng) / 2)
              ((bbox.minLat + bbox.maxLat) / 2) t = false)
          ∧ pointInTile ((bbox.minLng + bbox.maxLng) / 2)
              ((bbox.minLat + bbox.maxLat) / 2) r.tile = true
          ∧ r.fullyContained = bboxContainedInTile bbox r.tile)
    ∧ (findTileForBoundingBox tiles bbox = Except.ok none ↔
        (getUTMZone bbox.minLng = getUTMZone bbox.maxLng
          ∧ ∀ t ∈ tiles, pointInTile ((bbox.minLng + bbox.maxLng) / 2)
              ((bbox.minLat + bbox.maxLat) / 2) t = false)) := by
  intro tiles bbox
  by_cases hz : getUTMZone bbox.minLng = getUTMZone bbox.maxLng
  · simp only [findTileForBoundingBox, if_neg (not_not.mpr hz)]
    refine ⟨?_, ?_, ?_⟩
    · simp [hz]
    · intro r hr
      injection hr with hr'
      rcases Option.map_eq_some'.mp hr' with ⟨t, ht, htr⟩
      rcases find?_eq_some_decomp _ _ _ ht with ⟨l1, l2, hsplit, h1, h2⟩
      subst htr
      exact ⟨l1, l2, hsplit, h1, h2, rfl⟩
    · rw [Except.ok.injEq, Option.map_eq_none', List.find?_eq_none]
      constructor
      · intro hnone
        exact ⟨hz, fun t ht => Bool.not_eq_true _ |>.mp (hnone t ht)⟩
      · intro ⟨_, hall⟩ t ht
        simp [hall t ht]
  · simp only [findTileForBoundingBox, if_pos hz]
    refine ⟨?_, ?_, ?_⟩
    · simp [hz]
    · intro r hr
      cases hr
    · constructor
      · intro h
        cases h
      · intro ⟨hz', _⟩
        exact absurd hz' hz

/-- Witness for `findTile_spec`: the one-tile catalog `[c8Tile]` with the
in-zone, fully contained `c8Bbox` produces `c8Tile` with
`fullyContained = true`. -/
theorem findTile_spec_witness :
    ∃ l1 l2, [c8Tile] = l1 ++ (FindTileResult.mk c8Tile true).tile :: l2
      ∧ (∀ t ∈ l1, pointInTile ((c8Bbox.minLng + c8Bbox.maxLng) / 2)
          ((c8Bbox.minLat + c8Bbox.maxLat) / 2) t = false)
      ∧ pointInTile ((c8Bbox.minLng + c8Bbox.maxLng) / 2)
          ((c8Bbox.minLat + c8Bbox.maxLat) / 2) (FindTileResult.mk c8Tile true).tile = true
      ∧ (FindTileResult.mk c8Tile true).fullyContained
          = bboxContainedInTile c8Bbox (FindTileResult.mk c8Tile true).tile :=
  (findTile_spec [c8Tile] c8Bbox).2.1 (FindTileResult.mk c8Tile true) (by
    have hz : getUTMZone c8Bbox.minLng = getUTMZone c8Bbox.maxLng := by
      norm_num [getUTMZone, c8Bbox]
    have hp : pointInTile ((c8Bbox.minLng + c8Bbox.maxLng) / 2)
        ((c8Bbox.minLat + c8Bbox.maxLat) / 2) c8Tile = true := by
      rw [pointInTile]
      norm_num [c8Bbox, c8Tile]
    have hc : bboxContainedInTile c8Bbox c8Tile = true := by
      rw [bboxContainedInTile]
      norm_num [c8Bbox, c8Tile]
    rw [findTileForBoundingBox, if_neg (not_not.mpr hz)]
    rw [List.find?_cons_of_pos _ hp, Option.map_some', hc])

theorem flipVertical_getD (data : List ℤ) (w h b i : ℕ) (hi : i < data.length) :
    (flipVertical data w h b).getD i 0
      = if i / (w * b) < h
        then data.getD ((h - 1 - i / (w * b)) * (w * b) + i % (w * b)) 0
        else 0 := by
  rw [flipVertical]
  exact getD_map_range _ _ _ _ hi

theorem flipVertical_length (data : List ℤ) (w h b : ℕ) :
    (flipVertical data w h b).length = data.length := by
  simp [flipVertical]

theorem list_eq_of_getD {l1 l2 : List ℤ} (hl : l1.length = l2.length)
    (h : ∀ i < l1.length, l1.getD i 0 = l2.getD i 0) : l1 = l2 := by
  apply List.ext_getElem hl
  intro i h1 h2
  have := h i h1
  simpa [List.getD_eq_getElem?_getD, List.getElem?_eq_getElem, h1, h2] using this

theorem rowIdx_div (rs y k : ℕ) (hk : k < rs) : (y * rs + k) / rs = y := by
  rw [show y * rs + k = rs * y + k from by ring,
    Nat.mul_add_div (Nat.pos_of_ne_zero fun h0 => by subst h0; exact absurd hk (Nat.not_lt_zero k)),
    Nat.div_eq_of_lt hk, Nat.add_zero]

theorem rowIdx_mod (rs y k : ℕ) (hk : k < rs) : (y * rs + k) % rs = k := by
  rw [show y * rs + k = rs * y + k from by ring, Nat.mul_add_mod, Nat.mod_eq_of_lt hk]

/-- Claim C10: for data of length `width*height*bands`, row `y` of
`flipVertical(data, width, height, bands)` equals row `height-1-y` of `data`
with the band-interleaved row contents unchanged; applying `flipVertical`
twice with the same dimensions returns the original array. -/
theorem flipVertical_spec :
    ∀ (data : List ℤ) (w h b : ℕ), data.length = w * h * b →
    ((flipVertical data w h b).length = data.length
      ∧ ∀ y < h, ∀ k < w * b,
          (flipVertical data w h b).getD (y * (w * b) + k) 0
            = data.getD ((h - 1 - y) * (w * b) + k) 0)
    ∧ flipVertical (flipVertical data w h b) w h b = data := by
  intro data w h b hlen
  have hlen' : data.length = h * (w * b) := by rw [hlen]; ring
  have hidx : ∀ y k, y < h → k < w * b → y * (w * b) + k < data.length := by
    intro y k hy hk
    calc y * (w * b) + k < y * (w * b) + (w * b) := by omega
    _ = (y + 1) * (w * b) := by ring
    _ ≤ h * (w * b) := Nat.mul_le_mul_right _ hy
    _ = data.length := hlen'.symm
  have hrow : ∀ y < h, ∀ k < w * b,
      (flipVertical data w h b).getD (y * (w * b) + k) 0
        = data.getD ((h - 1 - y) * (w * b) + k) 0 := by
    intro y hy k hk
    rw [flipVertical_getD data w h b _ (hidx y k hy hk)]
    rw [rowIdx_div _ _ _ hk, rowIdx_mod _ _ _ hk, if_pos hy]
  refine ⟨⟨flipVertical_length data w h b, hrow⟩, ?_⟩
  by_cases hrs : w * b = 0
  · have h0 : data.length = 0 := by rw [hlen']; rw [hrs]; ring
    have hd : data = [] := List.eq_nil_of_length_eq_zero h0
    subst hd
    rfl
  · have hrs' : 0 < w * b := Nat.pos_of_ne_zero hrs
    apply list_eq_of_getD
    · rw [flipVertical_length, flipVertical_length]
    · intro i hi
      have hi' : i < data.length := by
        rwa [flipVertical_length, flipVertical_length] at hi
      set q := i / (w * b) with hqdef
      set m := i % (w * b) with hmdef
      have hy : q < h := by
        rw [hqdef, Nat.div_lt_iff_lt_mul hrs']
        calc i < data.length := hi'
        _ = h * (w * b) := hlen'
      have hk : m < w * b := by
        rw [hmdef]
        exact Nat.mod_lt _ hrs'
      have hsplit : i = q * (w * b) + m := by
        rw [hqdef, hmdef, Nat.div_add_mod']
      have hflen : (flipVertical data w h b).length = data.length :=
        flipVertical_length data w h b
      have h0 : 0 < h := Nat.lt_of_le_of_lt (Nat.zero_le q) hy
      have hlt : h - 1 - q < h :=
        Nat.lt_of_le_of_lt (Nat.sub_le _ _) (Nat.pred_lt (Nat.pos_iff_ne_zero.mp h0))
      rw [flipVertical_getD _ w h b i (by rwa [hflen])]
      rw [if_pos hy]
      have hinner := hrow (h - 1 - q) hlt m hk
      rw [hinner]
      have hyy : h - 1 - (h - 1 - q) = q := Nat.sub_sub_self (Nat.le_pred_of_lt hy)
      rw [hyy, ← hsplit]

/-- Witness for `flipVertical_spec` at the concrete `1 × 2 × 1` raster
`c10Data = [3, 5]`. -/
theorem flipVertical_spec_witness :
    ((flipVertical c10Data 1 2 1).length = c10Data.length
      ∧ ∀ y < 2, ∀ k < 1 * 1,
          (flipVertical c10Data 1 2 1).getD (y * (1 * 1) + k) 0
            = c10Data.getD ((2 - 1 - y) * (1 * 1) + k) 0)
    ∧ flipVertical (flipVertical c10Data 1 2 1) 1 2 1 = c10Data :=
  flipVertical_spec c10Data 1 2 1 (by decide)

theorem downloadGeoTiff_entries (w h : ℕ) (bounds : BoundingBox) :
    (downloadGeoTiff w h bounds).entries =
      [{ entryOffset := 10, tag := 256, fieldType := 4, count := 1, valueOrOffset := w },
       { entryOffset := 22, tag := 257, fieldType := 4, count := 1, valueOrOffset := h },
       { entryOffset := 34, tag := 258, fieldType := 3, count := 1, valueOrOffset := 32 },
       { entryOffset := 46, tag := 259, fieldType := 3, count := 1, valueOrOffset := 1 },
       { entryOffset := 58, tag := 262, fieldType := 3, count := 1, valueOrOffset := 1 },
       { entryOffset := 70, tag := 273, fieldType := 4, count := 1, valueOrOffset := 288 },
       { entryOffset := 82, tag := 277, fieldType := 3, count := 1, valueOrOffset := 1 },
       { entryOffset := 94, tag := 278, fieldType := 4, count := 1, valueOrOffset := h },
       { entryOffset := 106, tag := 279, fieldType := 4, count := 1, valueOrOffset := w * h * 4 },
       { entryOffset := 118, tag := 284, fieldType := 3, count := 1, valueOrOffset := 1 },
       { entryOffset := 130, tag := 339, fieldType := 3, count := 1, valueOrOffset := 3 },
       { entryOffset := 142, tag := 33550, fieldType := 12, count := 3, valueOrOffset := 182 },
       { entryOffset := 154, tag := 33922, fieldType := 12, count := 6, valueOrOffset := 206 },
       { entryOffset := 166, tag := 34735, fieldType := 3, count := 16, valueOrOffset := 254 }] :=
  rfl

theorem downloadGeoTiff_extWrites (w h : ℕ) (bounds : BoundingBox) :
    (downloadGeoTiff w h bounds).extWrites =
      [{ offset := 182, byteSize := 24,
         value := TagValue.doubles [(bounds.maxLng - bounds.minLng) / (w : ℚ),
           (bounds.maxLat - bounds.minLat) / (h : ℚ), 0] },
       { offset := 206, byteSize := 48,
         value := TagValue.doubles [0, 0, 0, bounds.minLng, bounds.maxLat, 0] },
       { offset := 254, byteSize := 32,
         value := TagValue.shorts
           [1, 1, 0, 3, 1024, 0, 1, 2, 1025, 0, 1, 1, 2048, 0, 1, 4326] }] :=
  rfl

theorem downloadGeoTiff_layout_fields (w h : ℕ) (bounds : BoundingBox) :
    (downloadGeoTiff w h bounds).headerSize = 8
    ∧ (downloadGeoTiff w h bounds).numTags = 14
    ∧ (downloadGeoTiff w h bounds).ifdSize = 174
    ∧ (downloadGeoTiff w h bounds).extDataOffset = 182
    ∧ (downloadGeoTiff w h bounds).extDataSize = 104
    ∧ (downloadGeoTiff w h bounds).imageDataOffset = 288
    ∧ (downloadGeoTiff w h bounds).imageDataSize = w * h * 4
    ∧ (downloadGeoTiff w h bounds).totalSize = 288 + w * h * 4 :=
  ⟨rfl, rfl, rfl, rfl, rfl, rfl, rfl, rfl⟩

/-- Claim C9: the buffer layout produced by `downloadGeoTiff` has its 14 IFD
directory entries in strictly ascending tag-ID order; every tag value larger
than 4 bytes is written to the extension area after the IFD and referenced
by its offset from the entry; and the Float32 image data begins at a 4-byte
aligned offset placed after all metadata. -/
theorem geotiff_layout_spec :
    ∀ (w h : ℕ) (bounds : BoundingBox),
    ((downloadGeoTiff w h bounds).entries.map IFDEntry.tag
        = [256, 257, 258, 259, 262, 273, 277, 278, 279, 284, 339, 33550, 33922, 34735]
      ∧ (downloadGeoTiff w h bounds).entries.length = 14
      ∧ List.Chain' (fun t1 t2 => t1 < t2)
          ((downloadGeoTiff w h bounds).entries.map IFDEntry.tag))
    ∧ (∀ e ∈ (downloadGeoTiff w h bounds).entries,
        4 < e.count * typeSize e.fieldType →
        ∃ wr ∈ (downloadGeoTiff w h bounds).extWrites,
          wr.offset = e.valueOrOffset
          ∧ (downloadGeoTiff w h bounds).headerSize
              + (downloadGeoTiff w h bounds).ifdSize ≤ wr.offset
          ∧ wr.offset + wr.byteSize ≤ (downloadGeoTiff w h bounds).imageDataOffset)
    ∧ ((downloadGeoTiff w h bounds).imageDataOffset % 4 = 0
      ∧ (downloadGeoTiff w h bounds).extDataOffset
          + (downloadGeoTiff w h bounds).extDataSize
          ≤ (downloadGeoTiff w h bounds).imageDataOffset
      ∧ (downloadGeoTiff w h bounds).totalSize
          = (downloadGeoTiff w h bounds).imageDataOffset
            + (downloadGeoTiff w h bounds).imageDataSize) := by
  intro w h bounds
  have hfields := downloadGeoTiff_layout_fields w h bounds
  have htags : (downloadGeoTiff w h bounds).entries.map IFDEntry.tag
      = [256, 257, 258, 259, 262, 273, 277, 278, 279, 284, 339, 33550, 33922, 34735] := by
    rw [downloadGeoTiff_entries]
    rfl
  refine ⟨⟨htags, ?_, ?_⟩, ?_, ?_, ?_, ?_⟩
  · rw [downloadGeoTiff_entries]
    rfl
  · rw [htags]
    simp only [List.chain'_cons, List.chain'_singleton, and_true]
    norm_num
  · intro e he hbig
    rw [downloadGeoTiff_entries] at he
    simp only [List.mem_cons, List.not_mem_nil, or_false] at he
    rcases he with rfl|rfl|rfl|rfl|rfl|rfl|rfl|rfl|rfl|rfl|rfl|rfl|rfl|rfl
    · exact absurd hbig (by norm_num [typeSize])
    · exact absurd hbig (by norm_num [typeSize])
    · exact absurd hbig (by norm_num [typeSize])
    · exact absurd hbig (by norm_num [typeSize])
    · exact absurd hbig (by norm_num [typeSize])
    · exact absurd hbig (by norm_num [typeSize])
    · exact absurd hbig (by norm_num [typeSize])
    · exact absurd hbig (by norm_num [typeSize])
    · exact absurd hbig (by norm_num [typeSize])
    · exact absurd hbig (by norm_num [typeSize])
    · exact absurd hbig (by norm_num [typeSize])
    · refine ⟨ExtWrite.mk 182 24
          (TagValue.doubles [(bounds.maxLng - bounds.minLng) / (w : ℚ),
            (bounds.maxLat - bounds.minLat) / (h : ℚ), 0]), ?_, rfl, ?_, ?_⟩
      · rw [downloadGeoTiff_extWrites]
        exact List.mem_cons_self _ _
      · rw [(downloadGeoTiff_layout_fields w h bounds).1,
          (downloadGeoTiff_layout_fields w h bounds).2.2.1]
      · rw [(downloadGeoTiff_layout_fields w h bounds).2.2.2.2.2.1]
        norm_num
    · refine ⟨ExtWrite.mk 206 48
          (TagValue.doubles [0, 0, 0, bounds.minLng, bounds.maxLat, 0]),
          ?_, rfl, ?_, ?_⟩
      · rw [downloadGeoTiff_extWrites]
        exact List.mem_cons_of_mem _ (List.mem_cons_self _ _)
      · rw [(downloadGeoTiff_layout_fields w h bounds).1,
          (downloadGeoTiff_layout_fields w h bounds).2.2.1]
        norm_num
      · rw [(downloadGeoTiff_layout_fields w h bounds).2.2.2.2.2.1]
        norm_num
    · refine ⟨ExtWrite.mk 254 32
          (TagValue.shorts
            [1, 1, 0, 3, 1024, 0, 1, 2, 1025, 0, 1, 1, 2048, 0, 1, 4326]),
          ?_, rfl, ?_, ?_⟩
      · rw [downloadGeoTiff_extWrites]
        exact List.mem_cons_of_mem _ (List.mem_cons_of_mem _ (List.mem_cons_self _ _))
      · rw [(downloadGeoTiff_layout_fields w h bounds).1,
          (downloadGeoTiff_layout_fields w h bounds).2.2.1]
        norm_num
      · rw [(downloadGeoTiff_layout_fields w h bounds).2.2.2.2.2.1]
        norm_num
  · rw [hfields.2.2.2.2.2.1]
  · rw [hfields.2.2.2.1, hfields.2.2.2.2.1, hfields.2.2.2.2.2.1]
    norm_num
  · rw [hfields.2.2.2.2.2.2.2, hfields.2.2.2.2.2.1, hfields.2.2.2.2.2.2.1]

/-- Witness for `geotiff_layout_spec` at the concrete `3 × 2` grid over
`c9Bounds`, instantiated at the `ModelPixelScale` entry (24 bytes of
doubles, written out of line at offset 182). -/
theorem geotiff_layout_spec_witness :
    ∃ wr ∈ (downloadGeoTiff 3 2 c9Bounds).extWrites,
      wr.offset = (IFDEntry.mk 142 33550 12 3 182).valueOrOffset
      ∧ (downloadGeoTiff 3 2 c9Bounds).headerSize
          + (downloadGeoTiff 3 2 c9Bounds).ifdSize ≤ wr.offset
      ∧ wr.offset + wr.byteSize ≤ (downloadGeoTiff 3 2 c9Bounds).imageDataOffset :=
  (geotiff_layout_spec 3 2 c9Bounds).2.1 (IFDEntry.mk 142 33550 12 3 182)
    (by rw [downloadGeoTiff_entries]; norm_num)
    (by norm_num [typeSize])

end AlphaEarth
